import Mathlib

/-!
Verification development for the fastcache response-memoization layer.

The repository ships its tests (src/tests/test_decorator.py), examples
(src/examples/in_memory/main.py, src/examples/redis/main.py) and the backend
package init (src/fastcache/backends/__init__.py); the core modules
(fastcache.decorator, fastcache.coder, fastcache.key_builder,
fastcache.backends.inmemory, the FastAPICache registry) are not part of the
sources, so the core is modelled here from the specification (spec.md), and
every definition whose doc comment starts with "Modelled from the spec:"
names the missing module it stands for.
-/

namespace Fastcache

/-- Modelled from the spec: the primitive scalar and date/time value
categories supported by the Coder (spec §4.2): integers, strings, booleans,
null, dates and datetimes (the latter rendered in an unambiguous,
locale-independent textual form, modelled as ordinal day / second-of-day /
microsecond components). The missing module is fastcache.coder. -/
inductive Prim where
  | pInt (i : Int)
  | pStr (s : String)
  | pBool (b : Bool)
  | pNull
  | pDate (ordinalDay : Int)
  | pDateTime (ordinalDay : Int) (secondOfDay : Nat) (micros : Nat)
  deriving DecidableEq

/-- Modelled from the spec: the supported value categories of the Coder
(spec §4.2): primitive scalars, ordered sequences, ordered mappings,
structured records with named and optional fields (Pydantic models), and
full response envelopes (status, header mapping, body bytes, declared media
type). The missing module is fastcache.coder. -/
inductive Value where
  | prim (p : Prim)
  | seq (xs : List Prim)
  | map (kvs : List (String × Prim))
  | record (fields : List (String × Option Prim))
  | response (status : Nat) (headers : List (String × String))
      (body : List Nat) (mediaType : String)
  deriving DecidableEq

/-- Modelled from the spec: cell of the storable byte stream produced by the
Coder; the stream is a list of such cells (varint-like units). -/
abbrev Cell := Nat

def encNat (n : Nat) : List Cell := [n]

def decNat : List Cell → Option (Nat × List Cell)
  | n :: rest => some (n, rest)
  | [] => none

def encInt : Int → List Cell
  | .ofNat n => [0, n]
  | .negSucc n => [1, n]

def decInt : List Cell → Option (Int × List Cell)
  | 0 :: n :: rest => some (Int.ofNat n, rest)
  | 1 :: n :: rest => some (Int.negSucc n, rest)
  | _ => none

def encBool (b : Bool) : List Cell := [if b then 1 else 0]

def decBool : List Cell → Option (Bool × List Cell)
  | 0 :: rest => some (false, rest)
  | 1 :: rest => some (true, rest)
  | _ => none

def encStr (s : String) : List Cell := s.data.length :: s.data.map Char.toNat

def decStr : List Cell → Option (String × List Cell)
  | n :: rest =>
      if n ≤ rest.length then
        some (String.mk ((rest.take n).map Char.ofNat), rest.drop n)
      else none
  | [] => none

def encOpt (enc : α → List Cell) : Option α → List Cell
  | none => [0]
  | some a => 1 :: enc a

def decOpt (dec : List Cell → Option (α × List Cell)) :
    List Cell → Option (Option α × List Cell)
  | 0 :: rest => some (none, rest)
  | 1 :: rest =>
      match dec rest with
      | some (a, l) => some (some a, l)
      | none => none
  | _ => none

def encPair (encA : α → List Cell) (encB : β → List Cell) (p : α × β) :
    List Cell :=
  encA p.1 ++ encB p.2

def decPair (decA : List Cell → Option (α × List Cell))
    (decB : List Cell → Option (β × List Cell)) (l : List Cell) :
    Option ((α × β) × List Cell) :=
  match decA l with
  | some (a, l₁) =>
      match decB l₁ with
      | some (b, l₂) => some ((a, b), l₂)
      | none => none
  | none => none

/-- Length-prefixed encoding of a sequence of items. -/
def encSeq (enc : α → List Cell) (xs : List α) : List Cell :=
  xs.length :: xs.foldr (fun a acc => enc a ++ acc) []

def decCount (dec : List Cell → Option (α × List Cell)) :
    Nat → List Cell → Option (List α × List Cell)
  | 0, l => some ([], l)
  | Nat.succ n, l =>
      match dec l with
      | some (a, l₁) =>
          match decCount dec n l₁ with
          | some (as, l₂) => some (a :: as, l₂)
          | none => none
      | none => none

def decSeq (dec : List Cell → Option (α × List Cell)) :
    List Cell → Option (List α × List Cell)
  | n :: rest => decCount dec n rest
  | [] => none

def encPrim : Prim → List Cell
  | .pInt i => 0 :: encInt i
  | .pStr s => 1 :: encStr s
  | .pBool b => 2 :: encBool b
  | .pNull => [3]
  | .pDate d => 4 :: encInt d
  | .pDateTime d s us => 5 :: encInt d ++ [s, us]

def decPrim : List Cell → Option (Prim × List Cell)
  | 0 :: rest =>
      match decInt rest with
      | some (i, l) => some (.pInt i, l)
      | none => none
  | 1 :: rest =>
      match decStr rest with
      | some (s, l) => some (.pStr s, l)
      | none => none
  | 2 :: rest =>
      match decBool rest with
      | some (b, l) => some (.pBool b, l)
      | none => none
  | 3 :: rest => some (.pNull, rest)
  | 4 :: rest =>
      match decInt rest with
      | some (d, l) => some (.pDate d, l)
      | none => none
  | 5 :: rest =>
      match decInt rest with
      | some (d, s :: us :: l) => some (.pDateTime d s us, l)
      | _ => none
  | _ => none

/-- Modelled from the spec: Coder.encode (spec §4.2), serializing a supported
value to a storable byte sequence. The missing module is fastcache.coder. -/
def encode : Value → List Cell
  | .prim p => 0 :: encPrim p
  | .seq xs => 1 :: encSeq encPrim xs
  | .map kvs => 2 :: encSeq (encPair encStr encPrim) kvs
  | .record fs => 3 :: encSeq (encPair encStr (encOpt encPrim)) fs
  | .response status headers body mediaType =>
      4 :: status :: (encSeq (encPair encStr encStr) headers ++
        encSeq encNat body ++ encStr mediaType)

def decodeAux : List Cell → Option (Value × List Cell)
  | 0 :: rest =>
      match decPrim rest with
      | some (p, l) => some (.prim p, l)
      | none => none
  | 1 :: rest =>
      match decSeq decPrim rest with
      | some (xs, l) => some (.seq xs, l)
      | none => none
  | 2 :: rest =>
      match decSeq (decPair decStr decPrim) rest with
      | some (kvs, l) => some (.map kvs, l)
      | none => none
  | 3 :: rest =>
      match decSeq (decPair decStr (decOpt decPrim)) rest with
      | some (fs, l) => some (.record fs, l)
      | none => none
  | 4 :: status :: rest =>
      match decSeq (decPair decStr decStr) rest with
      | some (headers, l₁) =>
          match decSeq decNat l₁ with
          | some (body, l₂) =>
              match decStr l₂ with
              | some (mediaType, l₃) =>
                  some (.response status headers body mediaType, l₃)
              | none => none
          | none => none
      | none => none
  | _ => none

/-- Modelled from the spec: Coder.decode (spec §4.2); `none` models the
`DecodeError` raised on malformed or truncated payloads. The missing module
is fastcache.coder. -/
def decode (l : List Cell) : Option Value :=
  match decodeAux l with
  | some (v, []) => some v
  | _ => none

theorem decNat_enc (n : Nat) (rest : List Cell) :
    decNat (encNat n ++ rest) = some (n, rest) := rfl

theorem decInt_enc (i : Int) (rest : List Cell) :
    decInt (encInt i ++ rest) = some (i, rest) := by
  cases i <;> rfl

theorem decBool_enc (b : Bool) (rest : List Cell) :
    decBool (encBool b ++ rest) = some (b, rest) := by
  cases b <;> rfl

theorem decStr_enc (s : String) (rest : List Cell) :
    decStr (encStr s ++ rest) = some (s, rest) := by
  have hlen : s.data.length ≤ (s.data.map Char.toNat ++ rest).length := by
    simp [Nat.le_add_right]
  have htake : (s.data.map Char.toNat ++ rest).take s.data.length =
      s.data.map Char.toNat := by
    rw [show s.data.length = (s.data.map Char.toNat).length by simp,
      List.take_left]
  have hdrop : (s.data.map Char.toNat ++ rest).drop s.data.length = rest := by
    rw [show s.data.length = (s.data.map Char.toNat).length by simp,
      List.drop_left]
  have hmap : (s.data.map Char.toNat).map Char.ofNat = s.data := by
    rw [List.map_map]
    simp [Function.comp_def, Char.ofNat_toNat]
  simp only [encStr, List.cons_append, decStr]
  rw [if_pos hlen, htake, hdrop, hmap]

theorem decOpt_enc (dec : List Cell → Option (α × List Cell))
    (enc : α → List Cell)
    (h : ∀ a rest, dec (enc a ++ rest) = some (a, rest))
    (o : Option α) (rest : List Cell) :
    decOpt dec (encOpt enc o ++ rest) = some (o, rest) := by
  cases o with
  | none => rfl
  | some a => simp [encOpt, decOpt, h a rest]

theorem decPair_enc (decA : List Cell → Option (α × List Cell))
    (decB : List Cell → Option (β × List Cell))
    (encA : α → List Cell) (encB : β → List Cell)
    (hA : ∀ a rest, decA (encA a ++ rest) = some (a, rest))
    (hB : ∀ b rest, decB (encB b ++ rest) = some (b, rest))
    (p : α × β) (rest : List Cell) :
    decPair decA decB (encPair encA encB p ++ rest) = some (p, rest) := by
  simp [encPair, decPair, List.append_assoc, hA, hB]

theorem decCount_enc (dec : List Cell → Option (α × List Cell))
    (enc : α → List Cell)
    (h : ∀ a rest, dec (enc a ++ rest) = some (a, rest)) :
    ∀ (xs : List α) (rest : List Cell),
      decCount dec xs.length
        (xs.foldr (fun a acc => enc a ++ acc) [] ++ rest) = some (xs, rest) := by
  intro xs
  induction xs with
  | nil => intro rest; rfl
  | cons a as ih =>
      intro rest
      simp only [List.foldr_cons, List.length_cons, List.append_assoc,
        decCount, h a, ih rest]

theorem decSeq_enc (dec : List Cell → Option (α × List Cell))
    (enc : α → List Cell)
    (h : ∀ a rest, dec (enc a ++ rest) = some (a, rest))
    (xs : List α) (rest : List Cell) :
    decSeq dec (encSeq enc xs ++ rest) = some (xs, rest) := by
  simp only [encSeq, List.cons_append, decSeq]
  exact decCount_enc dec enc h xs rest

theorem decPrim_enc (p : Prim) (rest : List Cell) :
    decPrim (encPrim p ++ rest) = some (p, rest) := by
  cases p with
  | pInt i => simp [encPrim, decPrim, decInt_enc]
  | pStr s => simp [encPrim, decPrim, decStr_enc]
  | pBool b => simp [encPrim, decPrim, decBool_enc]
  | pNull => rfl
  | pDate d => simp [encPrim, decPrim, decInt_enc]
  | pDateTime d s us =>
      simp only [encPrim, List.cons_append, List.append_assoc,
        List.nil_append, decPrim, decInt_enc]

theorem decodeAux_encode (v : Value) (rest : List Cell) :
    decodeAux (encode v ++ rest) = some (v, rest) := by
  cases v with
  | prim p => simp [encode, decodeAux, decPrim_enc]
  | seq xs => simp [encode, decodeAux, decSeq_enc decPrim encPrim decPrim_enc]
  | map kvs =>
      simp [encode, decodeAux,
        decSeq_enc (decPair decStr decPrim) (encPair encStr encPrim)
          (decPair_enc decStr decPrim encStr encPrim decStr_enc decPrim_enc)]
  | record fs =>
      simp [encode, decodeAux,
        decSeq_enc (decPair decStr (decOpt decPrim))
          (encPair encStr (encOpt encPrim))
          (decPair_enc decStr (decOpt decPrim) encStr (encOpt encPrim)
            decStr_enc (decOpt_enc decPrim encPrim decPrim_enc))]
  | response status headers body mediaType =>
      simp only [encode, List.cons_append, List.append_assoc, decodeAux,
        decSeq_enc (decPair decStr decStr) (encPair encStr encStr)
          (decPair_enc decStr decStr encStr encStr decStr_enc decStr_enc),
        decSeq_enc decNat encNat decNat_enc, decStr_enc]

/-- Round trip of the Coder used throughout the interceptor proofs. -/
theorem decode_encode (v : Value) : decode (encode v) = some v := by
  have h := decodeAux_encode v []
  rw [List.append_nil] at h
  simp [decode, h]

/-- Modelled from the spec: the two parameter names recognized as injected
framework request/response dependencies (spec §4.1, §9), derived from the
configurable injected-dependency namespace (decorator argument
injected_dependency_namespace, exercised by test_alternate_injected_namespace
and examples/in_memory/main.py namespaced_injection). The missing module is
fastcache.decorator. -/
def injectedNames (depNs : String) : List String :=
  [depNs ++ "_request", depNs ++ "_response"]

/-- Modelled from the spec: KeyBuilder drops keyword arguments bound to
injected request/response dependencies before encoding (spec §4.1). -/
def dropInjected (depNs : String) (kwargs : List (String × Value)) :
    List (String × Value) :=
  kwargs.filter (fun kv => !(injectedNames depNs).contains kv.1)

/-- Modelled from the spec: KeyBuilder canonicalizes keyword arguments by
sorting on name before encoding (spec §4.1). -/
def sortKwargs (kwargs : List (String × Value)) : List (String × Value) :=
  List.insertionSort (fun a b => a.1 ≤ b.1) kwargs

/-- Printable rendering of a byte sequence, used as the key's argument
digest component. -/
def digest (bytes : List Cell) : String :=
  String.intercalate "." (bytes.map Nat.repr)

/-- Modelled from the spec: the canonical argument encoding used by the
KeyBuilder (spec §4.1): positional arguments in order, then the keyword
arguments with injected dependencies excluded and the remainder sorted by
name. The missing module is fastcache.key_builder. -/
def canonicalArgs (depNs : String) (args : List Value)
    (kwargs : List (String × Value)) : List Cell :=
  encSeq encode args ++
    encSeq (encPair encStr encode) (sortKwargs (dropInjected depNs kwargs))

/-- Modelled from the spec: KeyBuilder.build (spec §4.1), a pure function of
the global prefix, the namespace, the handler's stable identity and the
canonical argument encoding. The missing module is fastcache.key_builder. -/
def keyBuilder (prefixStr ns handlerId depNs : String) (args : List Value)
    (kwargs : List (String × Value)) : String :=
  prefixStr ++ ":" ++ ns ++ ":" ++ handlerId ++ ":" ++
    digest (canonicalArgs depNs args kwargs)

/-- Modelled from the spec: a stored cache entry (spec §3): key, payload
bytes, storedAt timestamp and ttl, together with the namespace side index
that backends without pattern-based deletion keep for clear-by-namespace
(spec §4.3). A ttl of none models a call site with no configured expiry.
The missing module is fastcache.backends.inmemory. -/
structure CacheEntry where
  key : String
  nsIndex : String
  payload : List Cell
  storedAt : Nat
  ttl : Option Nat
  deriving DecidableEq

/-- Modelled from the spec: the in-memory Backend variant, a single-process
mapping from keys to entries (spec §4.3). The missing module is
fastcache.backends.inmemory. -/
abbrev Backend := List CacheEntry

/-- Liveness check for an entry: visible only while now < storedAt + ttl
(spec §3); an entry without a ttl never expires. -/
def entryLive (now : Nat) (e : CacheEntry) : Bool :=
  match e.ttl with
  | none => true
  | some t => now < e.storedAt + t

/-- Modelled from the spec: Backend.get (spec §4.3): absent both when no
entry exists and when an entry exists but has expired (check-on-read). -/
def Backend.get (b : Backend) (now : Nat) (key : String) :
    Option (List Cell) :=
  match b.find? (fun e => e.key == key) with
  | some e => if entryLive now e then some e.payload else none
  | none => none

/-- Modelled from the spec: Backend.set (spec §4.3): unconditionally
overwrites any existing entry for the same key (last-write-wins), recording
the namespace in the side index. -/
def Backend.set (b : Backend) (now : Nat) (key ns : String)
    (payload : List Cell) (ttl : Option Nat) : Backend :=
  { key := key, nsIndex := ns, payload := payload, storedAt := now,
    ttl := ttl } :: b.filter (fun e => !(e.key == key))

/-- Modelled from the spec: Backend.clear(namespace) (spec §4.3): removes
all entries whose key was built under that namespace (via the side index)
and returns the count removed. -/
def Backend.clear (b : Backend) (ns : String) : Backend × Nat :=
  (b.filter (fun e => !(e.nsIndex == ns)),
    (b.filter (fun e => e.nsIndex == ns)).length)

/-- Modelled from the spec: the process-wide Registry state (spec §3):
active backend, global key prefix, global enable flag. The missing module
is the FastAPICache registry class. -/
structure RegistryState where
  backend : Backend
  prefixStr : String
  enabled : Bool

/-- Modelled from the spec: per-call-site configuration passed to the
wrapping decorator (spec §6): namespace, ttl seconds, injected-dependency
namespace. The missing module is fastcache.decorator. -/
structure CacheConfig where
  ns : String
  expire : Option Nat
  depNs : String

/-- Modelled from the spec: the request-side facts the Interceptor consults
(spec §4.4, §6): HTTP method and the raw Cache-Control request header. -/
structure RequestInfo where
  method : String
  cacheControl : Option String
  deriving DecidableEq

/-- Eligibility of the incoming method: only idempotent read (GET) requests
are eligible; a direct call without a request object is eligible
(spec §4.4). -/
def eligibleMethod : Option RequestInfo → Bool
  | some r => r.method == "GET"
  | none => true

/-- Presence of a specific Cache-Control request directive (spec §6). -/
def hasDirective (req : Option RequestInfo) (d : String) : Bool :=
  match req with
  | some r => r.cacheControl == some d
  | none => false

/-- Fault-injection switches modelling backend connectivity failures
during LOOKUP and STORE (spec §7). -/
structure Faults where
  lookupFails : Bool
  storeFails : Bool
  deriving DecidableEq

def noFaults : Faults := ⟨false, false⟩

/-- Observable outcome of one wrapped-handler invocation: the returned
value, the X-FastAPI-Cache response header value (none means the header is
absent), the backend after the call, the handler closure state after the
call, and whether the wrapped handler body ran. -/
structure Invocation (σ : Type) where
  result : Value
  cacheStatus : Option String
  backend : Backend
  handlerState : σ
  executed : Bool

/-- Modelled from the spec: the Interceptor state machine per invocation
(spec §4.4): DISABLED or ineligible method → PASSTHROUGH (no cache
interaction, no cache-status header); no-store → passthrough for reads and
skip STORE; no-cache → skip LOOKUP, execute and STORE; otherwise LOOKUP,
serving a decodable live entry as HIT without running the handler body, and
on miss (including lookup connectivity failure and decode failure) running
the handler, storing the encoded result (store connectivity failure is
swallowed) and marking MISS. Headers are set only when a response object is
in scope. The handler body is modelled as a state transformer so that
state-incrementing endpoints are expressible. The missing module is
fastcache.decorator. -/
def interceptorCall {σ : Type} (cfg : CacheConfig) (handlerId : String)
    (handler : σ → Value × σ) (reg : RegistryState) (now : Nat)
    (req : Option RequestInfo) (hasResponse : Bool) (args : List Value)
    (kwargs : List (String × Value)) (faults : Faults) (st : σ) :
    Invocation σ :=
  if !reg.enabled || !eligibleMethod req then
    let r := handler st
    { result := r.1, cacheStatus := none, backend := reg.backend,
      handlerState := r.2, executed := true }
  else if hasDirective req "no-store" then
    let r := handler st
    { result := r.1, cacheStatus := none, backend := reg.backend,
      handlerState := r.2, executed := true }
  else
    let key := keyBuilder reg.prefixStr cfg.ns handlerId cfg.depNs args kwargs
    let looked : Option (List Cell) :=
      if hasDirective req "no-cache" || faults.lookupFails then none
      else Backend.get reg.backend now key
    match looked.bind decode with
    | some v =>
        { result := v, cacheStatus := if hasResponse then some "HIT" else none,
          backend := reg.backend, handlerState := st, executed := false }
    | none =>
        let r := handler st
        let b :=
          if faults.storeFails then reg.backend
          else Backend.set reg.backend now key cfg.ns (encode r.1) cfg.expire
        { result := r.1,
          cacheStatus := if hasResponse then some "MISS" else none,
          backend := b, handlerState := r.2, executed := true }

theorem find?_filter_ne (l : List CacheEntry) (key key' : String)
    (hk : key' ≠ key) :
    (l.filter (fun e => !(e.key == key))).find? (fun e => e.key == key') =
      l.find? (fun e => e.key == key') := by
  induction l with
  | nil => rfl
  | cons a l ih =>
      by_cases hak : a.key = key
      · have h1 : (a.key == key) = true := by simp [hak]
        have h2 : (a.key == key') = false := by
          simp only [beq_eq_false_iff_ne, ne_eq, hak]
          exact fun h => hk h.symm
        simp [List.filter_cons, List.find?_cons, h1, h2, ih]
      · have h1 : (a.key == key) = false := by simp [hak]
        by_cases hak' : a.key = key'
        · have h2 : (a.key == key') = true := by simp [hak']
          simp [List.filter_cons, List.find?_cons, h1, h2]
        · have h2 : (a.key == key') = false := by simp [hak']
          simp [List.filter_cons, List.find?_cons, h1, h2, ih]

theorem Backend.get_set_self (b : Backend) (now : Nat) (key ns : String)
    (p : List Cell) (ttl : Option Nat) (t : Nat) :
    Backend.get (Backend.set b now key ns p ttl) t key =
      if entryLive t (CacheEntry.mk key ns p now ttl) then some p
      else none := by
  simp [Backend.get, Backend.set, List.find?_cons]

theorem Backend.get_set_other (b : Backend) (now : Nat) (key ns : String)
    (p : List Cell) (ttl : Option Nat) (t : Nat) (key' : String)
    (hk : key' ≠ key) :
    Backend.get (Backend.set b now key ns p ttl) t key' =
      Backend.get b t key' := by
  have h1 : (key == key') = false := by
    simp only [beq_eq_false_iff_ne, ne_eq]
    exact fun h => hk h.symm
  simp [Backend.get, Backend.set, List.find?_cons, h1, find?_filter_ne b key key' hk]

theorem step_passthrough {σ : Type} (cfg : CacheConfig) (hid : String)
    (handler : σ → Value × σ) (reg : RegistryState) (now : Nat)
    (req : Option RequestInfo) (hasResponse : Bool) (args : List Value)
    (kwargs : List (String × Value)) (faults : Faults) (st : σ)
    (h : reg.enabled = false ∨ eligibleMethod req = false) :
    interceptorCall cfg hid handler reg now req hasResponse args kwargs
        faults st =
      { result := (handler st).1, cacheStatus := none,
        backend := reg.backend, handlerState := (handler st).2,
        executed := true } := by
  rcases h with h | h <;> simp [interceptorCall, h]

theorem step_nostore {σ : Type} (cfg : CacheConfig) (hid : String)
    (handler : σ → Value × σ) (reg : RegistryState) (now : Nat)
    (req : Option RequestInfo) (hasResponse : Bool) (args : List Value)
    (kwargs : List (String × Value)) (faults : Faults) (st : σ)
    (hen : reg.enabled = true) (hel : eligibleMethod req = true)
    (hns : hasDirective req "no-store" = true) :
    interceptorCall cfg hid handler reg now req hasResponse args kwargs
        faults st =
      { result := (handler st).1, cacheStatus := none,
        backend := reg.backend, handlerState := (handler st).2,
        executed := true } := by
  simp [interceptorCall, hen, hel, hns]

theorem step_hit {σ : Type} (cfg : CacheConfig) (hid : String)
    (handler : σ → Value × σ) (reg : RegistryState) (now : Nat)
    (req : Option RequestInfo) (hasResponse : Bool) (args : List Value)
    (kwargs : List (String × Value)) (faults : Faults) (st : σ)
    (payload : List Cell) (v : Value)
    (hen : reg.enabled = true) (hel : eligibleMethod req = true)
    (hns : hasDirective req "no-store" = false)
    (hnc : hasDirective req "no-cache" = false)
    (hlf : faults.lookupFails = false)
    (hget : Backend.get reg.backend now
      (keyBuilder reg.prefixStr cfg.ns hid cfg.depNs args kwargs) =
        some payload)
    (hdec : decode payload = some v) :
    interceptorCall cfg hid handler reg now req hasResponse args kwargs
        faults st =
      { result := v,
        cacheStatus := if hasResponse then some "HIT" else none,
        backend := reg.backend, handlerState := st, executed := false } := by
  simp [interceptorCall, hen, hel, hns, hnc, hlf, hget, hdec]

theorem step_miss {σ : Type} (cfg : CacheConfig) (hid : String)
    (handler : σ → Value × σ) (reg : RegistryState) (now : Nat)
    (req : Option RequestInfo) (hasResponse : Bool) (args : List Value)
    (kwargs : List (String × Value)) (faults : Faults) (st : σ)
    (hen : reg.enabled = true) (hel : eligibleMethod req = true)
    (hns : hasDirective req "no-store" = false)
    (hmiss : hasDirective req "no-cache" = true ∨ faults.lookupFails = true ∨
      (Backend.get reg.backend now
        (keyBuilder reg.prefixStr cfg.ns hid cfg.depNs args kwargs)).bind
          decode = none) :
    interceptorCall cfg hid handler reg now req hasResponse args kwargs
        faults st =
      { result := (handler st).1,
        cacheStatus := if hasResponse then some "MISS" else none,
        backend :=
          if faults.storeFails then reg.backend
          else Backend.set reg.backend now
            (keyBuilder reg.prefixStr cfg.ns hid cfg.depNs args kwargs)
            cfg.ns (encode (handler st).1) cfg.expire,
        handlerState := (handler st).2, executed := true } := by
  rcases hmiss with h | h | h
  · simp [interceptorCall, hen, hel, hns, h]
  · simp [interceptorCall, hen, hel, hns, h]
  · cases hnc : hasDirective req "no-cache" <;>
      cases hlf : faults.lookupFails <;>
      simp [interceptorCall, hen, hel, hns, hnc, hlf, h]

/-- Handler of a state-incrementing endpoint (the getCounter scenario of
spec §8 and the put_ret counters of the example app): returns the
incremented counter. -/
def counterHandler : Nat → Value × Nat :=
  fun s => (Value.prim (Prim.pInt (Int.ofNat (s + 1))), s + 1)

/-- Eligibility facts for a plain GET request, shared by the scenario
proofs. -/
theorem plainGet_facts :
    eligibleMethod (some (RequestInfo.mk "GET" none)) = true ∧
      hasDirective (some (RequestInfo.mk "GET" none)) "no-store" = false ∧
      hasDirective (some (RequestInfo.mk "GET" none)) "no-cache" = false := by
  refine ⟨by decide, rfl, rfl⟩

/-- First-call shape: an enabled plain GET call whose key has no live entry
executes the handler, stores the encoded result and reports MISS. -/
theorem first_call_miss {σ : Type} (cfg : CacheConfig) (hid : String)
    (handler : σ → Value × σ) (reg : RegistryState) (t1 : Nat)
    (args : List Value) (kwargs : List (String × Value)) (st : σ)
    (hen : reg.enabled = true)
    (hfresh : Backend.get reg.backend t1
      (keyBuilder reg.prefixStr cfg.ns hid cfg.depNs args kwargs) = none) :
    interceptorCall cfg hid handler reg t1 (some (RequestInfo.mk "GET" none))
        true args kwargs noFaults st =
      { result := (handler st).1, cacheStatus := some "MISS",
        backend := Backend.set reg.backend t1
          (keyBuilder reg.prefixStr cfg.ns hid cfg.depNs args kwargs)
          cfg.ns (encode (handler st).1) cfg.expire,
        handlerState := (handler st).2, executed := true } := by
  rw [step_miss cfg hid handler reg t1 (some (RequestInfo.mk "GET" none))
    true args kwargs noFaults st hen plainGet_facts.1 plainGet_facts.2.1
    (Or.inr (Or.inr (by rw [hfresh]; rfl)))]
  simp [noFaults]

/-- C1: for a cache-enabled eligible GET handler, two consecutive
invocations with identical arguments within the ttl window return
observably equal results; the first response carries cache-status MISS,
the second carries HIT, and on the HIT the wrapped handler body is not
invoked (the handler closure state is untouched). -/
theorem C1_consecutive_calls_miss_then_hit {σ : Type} (cfg : CacheConfig)
    (hid : String) (handler : σ → Value × σ) (reg : RegistryState)
    (t1 t2 e : Nat) (args : List Value) (kwargs : List (String × Value))
    (st : σ) (c1 c2 : Invocation σ)
    (hen : reg.enabled = true)
    (hexp : cfg.expire = some e)
    (hfresh : Backend.get reg.backend t1
      (keyBuilder reg.prefixStr cfg.ns hid cfg.depNs args kwargs) = none)
    (hwin : t2 < t1 + e)
    (hc1 : c1 = interceptorCall cfg hid handler reg t1
      (some (RequestInfo.mk "GET" none)) true args kwargs noFaults st)
    (hc2 : c2 = interceptorCall cfg hid handler
      (RegistryState.mk c1.backend reg.prefixStr true) t2
      (some (RequestInfo.mk "GET" none)) true args kwargs noFaults
      c1.handlerState) :
    c1.cacheStatus = some "MISS" ∧ c2.cacheStatus = some "HIT" ∧
      c2.result = c1.result ∧ c2.executed = false ∧
      c2.handlerState = c1.handlerState := by
  subst hc1
  subst hc2
  rw [first_call_miss cfg hid handler reg t1 args kwargs st hen hfresh]
  have hget : Backend.get
      (Backend.set reg.backend t1
        (keyBuilder reg.prefixStr cfg.ns hid cfg.depNs args kwargs)
        cfg.ns (encode (handler st).1) cfg.expire) t2
      (keyBuilder reg.prefixStr cfg.ns hid cfg.depNs args kwargs) =
        some (encode (handler st).1) := by
    rw [hexp, Backend.get_set_self]
    simp [entryLive, hwin]
  have e2 := step_hit cfg hid handler
    (RegistryState.mk
      (Backend.set reg.backend t1
        (keyBuilder reg.prefixStr cfg.ns hid cfg.depNs args kwargs)
        cfg.ns (encode (handler st).1) cfg.expire) reg.prefixStr true)
    t2 (some (RequestInfo.mk "GET" none)) true args kwargs noFaults
    (handler st).2 (encode (handler st).1) (handler st).1 rfl
    plainGet_facts.1 plainGet_facts.2.1 plainGet_facts.2.2 rfl hget
    (decode_encode (handler st).1)
  rw [e2]
  exact ⟨rfl, rfl, rfl, rfl, rfl⟩

/-- Witness for C1 at a concrete input: counter handler, ttl 2, calls at
times 0 and 1 on an initially empty backend. -/
theorem C1_witness :
    (interceptorCall (CacheConfig.mk "test" (some 2) "__fastcache") "h"
        counterHandler (RegistryState.mk [] "fp" true) 0
        (some (RequestInfo.mk "GET" none)) true [] [] noFaults
        0).cacheStatus = some "MISS" ∧
    (interceptorCall (CacheConfig.mk "test" (some 2) "__fastcache") "h"
        counterHandler
        (RegistryState.mk
          (interceptorCall (CacheConfig.mk "test" (some 2) "__fastcache")
            "h" counterHandler (RegistryState.mk [] "fp" true) 0
            (some (RequestInfo.mk "GET" none)) true [] [] noFaults
            0).backend "fp" true) 1
        (some (RequestInfo.mk "GET" none)) true [] [] noFaults
        (interceptorCall (CacheConfig.mk "test" (some 2) "__fastcache")
          "h" counterHandler (RegistryState.mk [] "fp" true) 0
          (some (RequestInfo.mk "GET" none)) true [] [] noFaults
          0).handlerState).cacheStatus = some "HIT" := by
  have h := C1_consecutive_calls_miss_then_hit
    (CacheConfig.mk "test" (some 2) "__fastcache") "h" counterHandler
    (RegistryState.mk [] "fp" true) 0 1 2 [] [] 0 _ _ rfl rfl rfl
    (by decide) rfl rfl
  exact ⟨h.1, h.2.1⟩

/-- C2: a stored entry is visible to Backend.get only while
now < storedAt + ttl; get returns absent both for missing and for expired
entries; and once the ttl has elapsed the next invocation with the same
arguments is marked MISS, executes the handler and returns the freshly
computed result. -/
theorem C2_ttl_expiry {σ : Type} (cfg : CacheConfig) (hid : String)
    (handler : σ → Value × σ) (reg : RegistryState) (t1 t2 e : Nat)
    (args : List Value) (kwargs : List (String × Value)) (st : σ)
    (c1 c2 : Invocation σ)
    (hen : reg.enabled = true) (hexp : cfg.expire = some e)
    (hfresh : Backend.get reg.backend t1
      (keyBuilder reg.prefixStr cfg.ns hid cfg.depNs args kwargs) = none)
    (hlate : t1 + e ≤ t2)
    (hc1 : c1 = interceptorCall cfg hid handler reg t1
      (some (RequestInfo.mk "GET" none)) true args kwargs noFaults st)
    (hc2 : c2 = interceptorCall cfg hid handler
      (RegistryState.mk c1.backend reg.prefixStr true) t2
      (some (RequestInfo.mk "GET" none)) true args kwargs noFaults
      c1.handlerState) :
    (∀ (b : Backend) (now : Nat) (k ns : String) (p : List Cell)
        (ttl t : Nat),
      Backend.get (Backend.set b now k ns p (some ttl)) t k =
        if t < now + ttl then some p else none) ∧
    (∀ (b : Backend) (now : Nat) (k : String),
      b.find? (fun en => en.key == k) = none → Backend.get b now k = none) ∧
    c1.cacheStatus = some "MISS" ∧ c2.cacheStatus = some "MISS" ∧
      c2.executed = true ∧ c2.result = (handler c1.handlerState).1 := by
  refine ⟨?_, ?_, ?_⟩
  · intro b now k ns p ttl t
    rw [Backend.get_set_self]
    by_cases h : t < now + ttl <;> simp [entryLive, h]
  · intro b now k h
    simp [Backend.get, h]
  subst hc1
  subst hc2
  rw [first_call_miss cfg hid handler reg t1 args kwargs st hen hfresh]
  have hgone : (Backend.get
      (Backend.set reg.backend t1
        (keyBuilder reg.prefixStr cfg.ns hid cfg.depNs args kwargs)
        cfg.ns (encode (handler st).1) cfg.expire) t2
      (keyBuilder reg.prefixStr cfg.ns hid cfg.depNs args kwargs)).bind
        decode = none := by
    rw [hexp, Backend.get_set_self]
    have hnot : ¬ (t2 < t1 + e) := by omega
    simp [entryLive, hnot]
  have e2 := step_miss cfg hid handler
    (RegistryState.mk
      (Backend.set reg.backend t1
        (keyBuilder reg.prefixStr cfg.ns hid cfg.depNs args kwargs)
        cfg.ns (encode (handler st).1) cfg.expire) reg.prefixStr true)
    t2 (some (RequestInfo.mk "GET" none)) true args kwargs noFaults
    (handler st).2 rfl plainGet_facts.1 plainGet_facts.2.1
    (Or.inr (Or.inr hgone))
  rw [e2]
  exact ⟨rfl, rfl, rfl, rfl⟩

/-- Witness for C2 at a concrete input: counter handler, ttl 2, first call
at time 0, second call at time 5 (after expiry). -/
theorem C2_witness :
    (interceptorCall (CacheConfig.mk "test" (some 2) "__fastcache") "h"
        counterHandler
        (RegistryState.mk
          (interceptorCall (CacheConfig.mk "test" (some 2) "__fastcache")
            "h" counterHandler (RegistryState.mk [] "fp" true) 0
            (some (RequestInfo.mk "GET" none)) true [] [] noFaults
            0).backend "fp" true) 5
        (some (RequestInfo.mk "GET" none)) true [] [] noFaults
        (interceptorCall (CacheConfig.mk "test" (some 2) "__fastcache")
          "h" counterHandler (RegistryState.mk [] "fp" true) 0
          (some (RequestInfo.mk "GET" none)) true [] [] noFaults
          0).handlerState).cacheStatus = some "MISS" := by
  have h := C2_ttl_expiry
    (CacheConfig.mk "test" (some 2) "__fastcache") "h" counterHandler
    (RegistryState.mk [] "fp" true) 0 5 2 [] [] 0 _ _ rfl rfl rfl
    (by decide) rfl rfl
  exact h.2.2.2.1

/-- C5: for every supported value type — primitive scalars, ordered
sequences and mappings, date/datetime values, structured records with
optional fields, and full response envelopes (status, headers, body, media
type) — decode (encode v) yields a value equal to v in all observable
fields. -/
theorem C5_coder_roundtrip (v : Value) : decode (encode v) = some v :=
  decode_encode v

/-- Concrete call-site configuration used by the witness scenarios:
namespace "test", ttl 2 seconds, default injected-dependency namespace. -/
def wCfg : CacheConfig := CacheConfig.mk "test" (some 2) "__fastcache"

/-- Concrete registry used by the witness scenarios: empty in-memory
backend, prefix "fp", caching enabled. -/
def wReg : RegistryState := RegistryState.mk [] "fp" true

/-- Concrete plain GET request used by the witness scenarios. -/
def wGet : Option RequestInfo := some (RequestInfo.mk "GET" none)

/-- Concrete GET request bearing Cache-Control no-cache. -/
def wNoCache : Option RequestInfo :=
  some (RequestInfo.mk "GET" (some "no-cache"))

/-- Concrete GET request bearing Cache-Control no-store. -/
def wNoStore : Option RequestInfo :=
  some (RequestInfo.mk "GET" (some "no-store"))

/-- Forced-miss shape of a no-cache call: the lookup is skipped regardless
of the backend contents, the handler runs and its encoded result is
stored. -/
theorem nocache_call_miss {σ : Type} (cfg : CacheConfig) (hid : String)
    (handler : σ → Value × σ) (reg : RegistryState) (t1 : Nat)
    (args : List Value) (kwargs : List (String × Value)) (st : σ)
    (hen : reg.enabled = true) :
    interceptorCall cfg hid handler reg t1
        (some (RequestInfo.mk "GET" (some "no-cache"))) true args kwargs
        noFaults st =
      { result := (handler st).1, cacheStatus := some "MISS",
        backend := Backend.set reg.backend t1
          (keyBuilder reg.prefixStr cfg.ns hid cfg.depNs args kwargs)
          cfg.ns (encode (handler st).1) cfg.expire,
        handlerState := (handler st).2, executed := true } := by
  rw [step_miss cfg hid handler reg t1
    (some (RequestInfo.mk "GET" (some "no-cache"))) true args kwargs
    noFaults st hen (by decide) (by decide) (Or.inl (by decide))]
  simp [noFaults]

/-- C3: the interceptor honors the request Cache-Control directives: with
no-cache it skips the lookup (even when a live entry exists), executes the
handler and stores the fresh result, so a subsequent unadorned request
observes the refreshed value as HIT; with no-store it executes the handler,
sets no cache-status header and performs no store, leaving the backend
(and hence any previously stored entry for the key) unchanged. -/
theorem C3_cache_control_directives {σ : Type} (cfg : CacheConfig)
    (hid : String) (handler : σ → Value × σ) (reg : RegistryState)
    (t1 t2 t3 e : Nat) (args : List Value) (kwargs : List (String × Value))
    (st : σ) (cNC cP cNS : Invocation σ)
    (hen : reg.enabled = true) (hexp : cfg.expire = some e)
    (hwin : t2 < t1 + e)
    (hNC : cNC = interceptorCall cfg hid handler reg t1
      (some (RequestInfo.mk "GET" (some "no-cache"))) true args kwargs
      noFaults st)
    (hP : cP = interceptorCall cfg hid handler
      (RegistryState.mk cNC.backend reg.prefixStr true) t2
      (some (RequestInfo.mk "GET" none)) true args kwargs noFaults
      cNC.handlerState)
    (hNS : cNS = interceptorCall cfg hid handler
      (RegistryState.mk cP.backend reg.prefixStr true) t3
      (some (RequestInfo.mk "GET" (some "no-store"))) true args kwargs
      noFaults cP.handlerState) :
    cNC.executed = true ∧ cNC.result = (handler st).1 ∧
      cNC.cacheStatus = some "MISS" ∧
      cP.cacheStatus = some "HIT" ∧ cP.result = cNC.result ∧
      cNS.executed = true ∧ cNS.cacheStatus = none ∧
      cNS.backend = cP.backend := by
  subst hNC
  subst hP
  subst hNS
  rw [nocache_call_miss cfg hid handler reg t1 args kwargs st hen]
  have hget : Backend.get
      (Backend.set reg.backend t1
        (keyBuilder reg.prefixStr cfg.ns hid cfg.depNs args kwargs)
        cfg.ns (encode (handler st).1) cfg.expire) t2
      (keyBuilder reg.prefixStr cfg.ns hid cfg.depNs args kwargs) =
        some (encode (handler st).1) := by
    rw [hexp, Backend.get_set_self]
    simp [entryLive, hwin]
  have e2 := step_hit cfg hid handler
    (RegistryState.mk
      (Backend.set reg.backend t1
        (keyBuilder reg.prefixStr cfg.ns hid cfg.depNs args kwargs)
        cfg.ns (encode (handler st).1) cfg.expire) reg.prefixStr true)
    t2 (some (RequestInfo.mk "GET" none)) true args kwargs noFaults
    (handler st).2 (encode (handler st).1) (handler st).1 rfl
    plainGet_facts.1 plainGet_facts.2.1 plainGet_facts.2.2 rfl hget
    (decode_encode (handler st).1)
  rw [e2]
  have e3 := step_nostore cfg hid handler
    (RegistryState.mk
      (Backend.set reg.backend t1
        (keyBuilder reg.prefixStr cfg.ns hid cfg.depNs args kwargs)
        cfg.ns (encode (handler st).1) cfg.expire) reg.prefixStr true)
    t3 (some (RequestInfo.mk "GET" (some "no-store"))) true args kwargs
    noFaults (handler st).2 rfl (by decide) (by decide)
  rw [e3]
  exact ⟨rfl, rfl, rfl, rfl, rfl, rfl, rfl, rfl⟩

/-- Witness for C3 at a concrete input: counter handler, ttl 2, no-cache
call at time 0, plain call at time 1, no-store call at time 2, starting
from an empty backend. -/
theorem C3_witness :
    (interceptorCall wCfg "h" counterHandler wReg 0 wNoCache true [] []
        noFaults 0).cacheStatus = some "MISS" ∧
    (interceptorCall wCfg "h" counterHandler
        (RegistryState.mk
          (interceptorCall wCfg "h" counterHandler wReg 0 wNoCache true []
            [] noFaults 0).backend "fp" true) 1 wGet true [] [] noFaults
        (interceptorCall wCfg "h" counterHandler wReg 0 wNoCache true [] []
          noFaults 0).handlerState).cacheStatus = some "HIT" := by
  have h := C3_cache_control_directives wCfg "h" counterHandler wReg
    0 1 2 2 [] [] 0 _ _ _ rfl rfl (by decide) rfl rfl rfl
  exact ⟨h.2.2.1, h.2.2.2.1⟩

/-- Runs n consecutive invocations of the wrapped handler, one time unit
apart, threading the backend and the handler state, and collects the
observable (result, cache-status) pairs. -/
def runCalls {σ : Type} (cfg : CacheConfig) (hid : String)
    (handler : σ → Value × σ) (pfx : String) (enabled : Bool)
    (req : Option RequestInfo) (hasResponse : Bool) (args : List Value)
    (kwargs : List (String × Value)) (faults : Faults) :
    Nat → Nat → Backend → σ → List (Value × Option String)
  | 0, _, _, _ => []
  | Nat.succ n, now, b, st =>
      let c := interceptorCall cfg hid handler
        (RegistryState.mk b pfx enabled) now req hasResponse args kwargs
        faults st
      (c.result, c.cacheStatus) ::
        runCalls cfg hid handler pfx enabled req hasResponse args kwargs
          faults n (now + 1) c.backend c.handlerState

/-- Shape of n consecutive non-GET calls on the counter handler: each one
is a fresh passthrough execution with no cache-status header. -/
theorem runCalls_counter_nonGET (cfg : CacheConfig) (hid : String)
    (pfx : String) (rq : RequestInfo) (hasResponse : Bool)
    (args : List Value) (kwargs : List (String × Value)) (faults : Faults)
    (hm : rq.method ≠ "GET") :
    ∀ (n t s : Nat) (b : Backend),
      runCalls cfg hid counterHandler pfx true (some rq) hasResponse args
          kwargs faults n t b s =
        (List.range n).map (fun i =>
          (Value.prim (Prim.pInt (Int.ofNat (s + i + 1))), none)) := by
  intro n
  induction n with
  | zero => intro t s b; rfl
  | succ n ih =>
      intro t s b
      have hstep := step_passthrough cfg hid counterHandler
        (RegistryState.mk b pfx true) t (some rq) hasResponse args kwargs
        faults s (Or.inr (by simp [eligibleMethod, hm]))
      simp only [runCalls, hstep, ih]
      rw [List.range_succ_eq_map, List.map_cons, List.map_map]
      congr 1
      apply List.map_congr_left
      intro i hi
      simp only [counterHandler, Function.comp_apply, Prod.mk.injEq,
        Value.prim.injEq, Prim.pInt.injEq, Int.ofNat.injEq, and_true,
        Nat.succ_eq_add_one]
      omega

/-- C4: a request using a non-idempotent (non-GET) HTTP method is never
served from the cache and never written to it: the handler body executes
on every such call, the backend is left untouched, no cache-status header
is set, and N consecutive mutating calls on a state-incrementing counter
endpoint observe N pairwise-distinct fresh results, none carrying a
cache-status header. -/
theorem C4_mutating_methods_bypass_cache {σ : Type} (cfg : CacheConfig)
    (hid : String) (handler : σ → Value × σ) (reg : RegistryState)
    (now : Nat) (rq : RequestInfo) (hasResponse : Bool) (args : List Value)
    (kwargs : List (String × Value)) (faults : Faults) (st : σ)
    (hm : rq.method ≠ "GET") :
    (interceptorCall cfg hid handler reg now (some rq) hasResponse args
        kwargs faults st =
      { result := (handler st).1, cacheStatus := none,
        backend := reg.backend, handlerState := (handler st).2,
        executed := true }) ∧
    (∀ (n t s : Nat) (b : Backend) (pfx : String),
      runCalls cfg hid counterHandler pfx true (some rq) hasResponse args
          kwargs faults n t b s =
        (List.range n).map (fun i =>
          (Value.prim (Prim.pInt (Int.ofNat (s + i + 1))), none)) ∧
      ((runCalls cfg hid counterHandler pfx true (some rq) hasResponse args
          kwargs faults n t b s).map Prod.fst).Nodup) := by
  constructor
  · exact step_passthrough cfg hid handler reg now (some rq) hasResponse
      args kwargs faults st (Or.inr (by simp [eligibleMethod, hm]))
  · intro n t s b pfx
    have hrun := runCalls_counter_nonGET cfg hid pfx rq hasResponse args
      kwargs faults hm n t s b
    refine ⟨hrun, ?_⟩
    rw [hrun, List.map_map]
    have hinj : Function.Injective
        (Prod.fst ∘ fun i : Nat =>
          (Value.prim (Prim.pInt (Int.ofNat (s + i + 1))),
            (none : Option String))) := by
      intro a b h
      simp only [Function.comp_apply, Value.prim.injEq, Prim.pInt.injEq,
        Int.ofNat.injEq] at h
      omega
    exact (List.nodup_range n).map hinj

/-- Witness for C4 at a concrete input: a PUT request, three consecutive
calls from counter state 0 at time 0 on an empty backend. -/
theorem C4_witness :
    runCalls wCfg "h" counterHandler "fp" true
        (some (RequestInfo.mk "PUT" none)) true [] [] noFaults 3 0 [] 0 =
      [(Value.prim (Prim.pInt 1), none), (Value.prim (Prim.pInt 2), none),
        (Value.prim (Prim.pInt 3), none)] := by
  have h := (C4_mutating_methods_bypass_cache wCfg "h" counterHandler wReg
    0 (RequestInfo.mk "PUT" none) true [] [] noFaults 0
    (by decide)).2 3 0 0 [] "fp"
  rw [h.1]
  rfl

/-- Sorting keyword arguments by name is canonical: two permutations of
the same keyword-argument list with pairwise-distinct names sort to the
identical list. -/
theorem sortKwargs_eq_of_perm (l₁ l₂ : List (String × Value))
    (hp : l₁.Perm l₂) (hnd : (l₁.map Prod.fst).Nodup) :
    sortKwargs l₁ = sortKwargs l₂ := by
  haveI hto : IsTotal (String × Value) (fun a b => a.1 ≤ b.1) :=
    ⟨fun a b => le_total a.1 b.1⟩
  haveI htr : IsTrans (String × Value) (fun a b => a.1 ≤ b.1) :=
    ⟨fun a b c hab hbc => le_trans hab hbc⟩
  haveI han : IsAntisymm (String × Value) (fun a b => a.1 < b.1) :=
    ⟨fun a b hab hba => absurd (lt_trans hab hba) (lt_irrefl _)⟩
  have hs₁ := List.sorted_insertionSort (fun a b : String × Value => a.1 ≤ b.1) l₁
  have hs₂ := List.sorted_insertionSort (fun a b : String × Value => a.1 ≤ b.1) l₂
  have hp₁ := List.perm_insertionSort (fun a b : String × Value => a.1 ≤ b.1) l₁
  have hp₂ := List.perm_insertionSort (fun a b : String × Value => a.1 ≤ b.1) l₂
  have hperm : (sortKwargs l₁).Perm (sortKwargs l₂) :=
    hp₁.trans (hp.trans hp₂.symm)
  have hnd₁ : ((sortKwargs l₁).map Prod.fst).Nodup :=
    ((hp₁.map Prod.fst).nodup_iff).mpr hnd
  have hnd₂ : ((sortKwargs l₂).map Prod.fst).Nodup :=
    ((hperm.map Prod.fst).nodup_iff).mp hnd₁
  have hstrict : ∀ (l : List (String × Value)),
      List.Sorted (fun a b : String × Value => a.1 ≤ b.1) l →
      (l.map Prod.fst).Nodup →
      List.Sorted (fun a b : String × Value => a.1 < b.1) l := by
    intro l hs hn
    have hne : List.Pairwise (fun a b : String × Value => a.1 ≠ b.1) l :=
      (List.pairwise_map).mp hn
    exact (hs.and hne).imp (fun h => lt_of_le_of_ne h.1 h.2)
  exact List.eq_of_perm_of_sorted hperm (hstrict _ hs₁ hnd₁)
    (hstrict _ hs₂ hnd₂)

/-- C6: the cache key is a deterministic pure function of (namespace,
handler identity, canonical argument encoding): permuting the keyword
arguments never changes the key, and keyword arguments bound to injected
request/response dependencies — recognized by the parameter-name
convention derived from the configured (possibly alternate)
injected-dependency namespace — are excluded from the encoding, so the key
never depends on those ambient per-request values. -/
theorem C6_key_pure_and_canonical (p ns hid depNs : String)
    (args : List Value) (kwargs₁ kwargs₂ extra : List (String × Value))
    (hp : kwargs₁.Perm kwargs₂)
    (hnd : ((dropInjected depNs kwargs₁).map Prod.fst).Nodup)
    (hextra : ∀ kv ∈ extra, kv.1 ∈ injectedNames depNs) :
    keyBuilder p ns hid depNs args kwargs₁ =
        keyBuilder p ns hid depNs args kwargs₂ ∧
      keyBuilder p ns hid depNs args (kwargs₁ ++ extra) =
        keyBuilder p ns hid depNs args kwargs₁ := by
  constructor
  · have hdp : (dropInjected depNs kwargs₁).Perm (dropInjected depNs kwargs₂) :=
      hp.filter _
    unfold keyBuilder canonicalArgs
    rw [sortKwargs_eq_of_perm _ _ hdp hnd]
  · have hnil : extra.filter
        (fun kv => !(injectedNames depNs).contains kv.1) = [] := by
      rw [List.filter_eq_nil_iff]
      intro kv hkv
      simp [hextra kv hkv]
    have hdrop : dropInjected depNs (kwargs₁ ++ extra) =
        dropInjected depNs kwargs₁ := by
      unfold dropInjected
      rw [List.filter_append, hnil, List.append_nil]
    unfold keyBuilder canonicalArgs
    rw [hdrop]

/-- Witness for C6 at a concrete input: two orderings of the same two
keyword arguments, plus an injected-dependency argument under the
alternate namespace monty_python. -/
theorem C6_witness :
    keyBuilder "fp" "test" "h" "monty_python" []
        [("b", Value.prim (Prim.pInt 1)), ("a", Value.prim Prim.pNull)] =
      keyBuilder "fp" "test" "h" "monty_python" []
        [("a", Value.prim Prim.pNull), ("b", Value.prim (Prim.pInt 1))] ∧
    keyBuilder "fp" "test" "h" "monty_python" []
        ([("b", Value.prim (Prim.pInt 1)), ("a", Value.prim Prim.pNull)] ++
          [("monty_python_request", Value.prim Prim.pNull)]) =
      keyBuilder "fp" "test" "h" "monty_python" []
        [("b", Value.prim (Prim.pInt 1)), ("a", Value.prim Prim.pNull)] :=
  C6_key_pure_and_canonical "fp" "test" "h" "monty_python" []
    [("b", Value.prim (Prim.pInt 1)), ("a", Value.prim Prim.pNull)]
    [("a", Value.prim Prim.pNull), ("b", Value.prim (Prim.pInt 1))]
    [("monty_python_request", Value.prim Prim.pNull)]
    (List.Perm.swap ("a", Value.prim Prim.pNull)
      ("b", Value.prim (Prim.pInt 1)) [])
    (by decide) (by decide)

/-- C7: a cache-layer failure never fails the request: a backend
connectivity error during lookup is treated exactly as a miss (the handler
executes, its result is stored and returned, status MISS); a decode
failure on a stored entry is treated exactly as a miss; and a backend
error during store is swallowed — the already-computed handler result is
still returned with status MISS and the backend is left unchanged. -/
theorem C7_cache_failures_fail_open {σ : Type} (cfg : CacheConfig)
    (hid : String) (handler : σ → Value × σ) (reg : RegistryState)
    (now : Nat) (args : List Value) (kwargs : List (String × Value))
    (st : σ) (hen : reg.enabled = true) :
    (interceptorCall cfg hid handler reg now
        (some (RequestInfo.mk "GET" none)) true args kwargs
        (Faults.mk true false) st =
      { result := (handler st).1, cacheStatus := some "MISS",
        backend := Backend.set reg.backend now
          (keyBuilder reg.prefixStr cfg.ns hid cfg.depNs args kwargs)
          cfg.ns (encode (handler st).1) cfg.expire,
        handlerState := (handler st).2, executed := true }) ∧
    (∀ payload, Backend.get reg.backend now
        (keyBuilder reg.prefixStr cfg.ns hid cfg.depNs args kwargs) =
          some payload → decode payload = none →
      interceptorCall cfg hid handler reg now
          (some (RequestInfo.mk "GET" none)) true args kwargs noFaults st =
        { result := (handler st).1, cacheStatus := some "MISS",
          backend := Backend.set reg.backend now
            (keyBuilder reg.prefixStr cfg.ns hid cfg.depNs args kwargs)
            cfg.ns (encode (handler st).1) cfg.expire,
          handlerState := (handler st).2, executed := true }) ∧
    (Backend.get reg.backend now
        (keyBuilder reg.prefixStr cfg.ns hid cfg.depNs args kwargs) =
          none →
      interceptorCall cfg hid handler reg now
          (some (RequestInfo.mk "GET" none)) true args kwargs
          (Faults.mk false true) st =
        { result := (handler st).1, cacheStatus := some "MISS",
          backend := reg.backend, handlerState := (handler st).2,
          executed := true }) := by
  refine ⟨?_, ?_, ?_⟩
  · rw [step_miss cfg hid handler reg now (some (RequestInfo.mk "GET" none))
      true args kwargs (Faults.mk true false) st hen plainGet_facts.1
      plainGet_facts.2.1 (Or.inr (Or.inl rfl))]
    simp
  · intro payload hget hdec
    rw [step_miss cfg hid handler reg now (some (RequestInfo.mk "GET" none))
      true args kwargs noFaults st hen plainGet_facts.1 plainGet_facts.2.1
      (Or.inr (Or.inr (by rw [hget]; simp [hdec])))]
    simp [noFaults]
  · intro hfresh
    rw [step_miss cfg hid handler reg now (some (RequestInfo.mk "GET" none))
      true args kwargs (Faults.mk false true) st hen plainGet_facts.1
      plainGet_facts.2.1 (Or.inr (Or.inr (by rw [hfresh]; rfl)))]
    simp

/-- Witness for C7 at a concrete input: lookup-connectivity failure on the
counter handler still executes the handler, stores and reports MISS. -/
theorem C7_witness :
    interceptorCall wCfg "h" counterHandler wReg 0
        (some (RequestInfo.mk "GET" none)) true [] [] (Faults.mk true false)
        0 =
      { result := (counterHandler 0).1, cacheStatus := some "MISS",
        backend := Backend.set wReg.backend 0
          (keyBuilder wReg.prefixStr wCfg.ns "h" wCfg.depNs [] []) wCfg.ns
          (encode (counterHandler 0).1) wCfg.expire,
        handlerState := (counterHandler 0).2, executed := true } :=
  (C7_cache_failures_fail_open wCfg "h" counterHandler wReg 0 [] [] 0
    rfl).1

/-- C8: clear(namespace) removes exactly the set of entries stored under
that namespace and returns the count of entries removed; entries of every
other namespace are left unchanged, so post-clear calls in the cleared
namespace are MISS while calls in another namespace still HIT within
ttl. -/
theorem C8_clear_namespace {σ₁ σ₂ : Type} (cfg₁ cfg₂ : CacheConfig)
    (hid₁ hid₂ pfx : String) (handler₁ : σ₁ → Value × σ₁)
    (handler₂ : σ₂ → Value × σ₂) (st₁ : σ₁) (st₂ : σ₂) (t t2 e₂ : Nat)
    (cA : Invocation σ₁) (cB : Invocation σ₂) (bc : Backend)
    (cA2 : Invocation σ₁) (cB2 : Invocation σ₂)
    (hns : cfg₁.ns ≠ cfg₂.ns)
    (hexp₂ : cfg₂.expire = some e₂)
    (hkey : keyBuilder pfx cfg₁.ns hid₁ cfg₁.depNs [] [] ≠
      keyBuilder pfx cfg₂.ns hid₂ cfg₂.depNs [] [])
    (hwin : t2 < t + e₂)
    (hA : cA = interceptorCall cfg₁ hid₁ handler₁
      (RegistryState.mk [] pfx true) t (some (RequestInfo.mk "GET" none))
      true [] [] noFaults st₁)
    (hB : cB = interceptorCall cfg₂ hid₂ handler₂
      (RegistryState.mk cA.backend pfx true) t
      (some (RequestInfo.mk "GET" none)) true [] [] noFaults st₂)
    (hbc : bc = (Backend.clear cB.backend cfg₁.ns).1)
    (hA2 : cA2 = interceptorCall cfg₁ hid₁ handler₁
      (RegistryState.mk bc pfx true) t2 (some (RequestInfo.mk "GET" none))
      true [] [] noFaults st₁)
    (hB2 : cB2 = interceptorCall cfg₂ hid₂ handler₂
      (RegistryState.mk cA2.backend pfx true) t2
      (some (RequestInfo.mk "GET" none)) true [] [] noFaults
      cB.handlerState) :
    (∀ (b : Backend) (ns : String) (en : CacheEntry),
      en ∈ (Backend.clear b ns).1 ↔ en ∈ b ∧ en.nsIndex ≠ ns) ∧
    (∀ (b : Backend) (ns : String),
      (Backend.clear b ns).2 = b.countP (fun en => en.nsIndex == ns)) ∧
    (Backend.clear cB.backend cfg₁.ns).2 = 1 ∧
      cA2.cacheStatus = some "MISS" ∧ cA2.executed = true ∧
      cB2.cacheStatus = some "HIT" ∧ cB2.result = cB.result := by
  have hb12 : (keyBuilder pfx cfg₁.ns hid₁ cfg₁.depNs [] [] ==
      keyBuilder pfx cfg₂.ns hid₂ cfg₂.depNs [] []) = false := by
    simp [hkey]
  have hb21 : (keyBuilder pfx cfg₂.ns hid₂ cfg₂.depNs [] [] ==
      keyBuilder pfx cfg₁.ns hid₁ cfg₁.depNs [] []) = false := by
    simp [Ne.symm hkey]
  have hns2 : (cfg₂.ns == cfg₁.ns) = false := by
    simp [Ne.symm hns]
  refine ⟨?_, ?_, ?_⟩
  · intro b ns en
    simp [Backend.clear, List.mem_filter]
  · intro b ns
    simp [Backend.clear, List.countP_eq_length_filter]
  subst hA
  subst hB
  subst hbc
  subst hA2
  subst hB2
  rw [first_call_miss cfg₁ hid₁ handler₁ (RegistryState.mk [] pfx true) t
    [] [] st₁ rfl rfl]
  have hfB : Backend.get (Backend.set [] t
      (keyBuilder pfx cfg₁.ns hid₁ cfg₁.depNs [] []) cfg₁.ns
      (encode (handler₁ st₁).1) cfg₁.expire) t
      (keyBuilder pfx cfg₂.ns hid₂ cfg₂.depNs [] []) = none := by
    rw [Backend.get_set_other [] t
      (keyBuilder pfx cfg₁.ns hid₁ cfg₁.depNs [] []) cfg₁.ns
      (encode (handler₁ st₁).1) cfg₁.expire t
      (keyBuilder pfx cfg₂.ns hid₂ cfg₂.depNs [] []) (Ne.symm hkey)]
    rfl
  rw [first_call_miss cfg₂ hid₂ handler₂
    (RegistryState.mk (Backend.set [] t
      (keyBuilder pfx cfg₁.ns hid₁ cfg₁.depNs [] []) cfg₁.ns
      (encode (handler₁ st₁).1) cfg₁.expire) pfx true) t [] [] st₂ rfl hfB]
  have hbc' : (Backend.clear (Backend.set (Backend.set [] t
      (keyBuilder pfx cfg₁.ns hid₁ cfg₁.depNs [] []) cfg₁.ns
      (encode (handler₁ st₁).1) cfg₁.expire) t
      (keyBuilder pfx cfg₂.ns hid₂ cfg₂.depNs [] []) cfg₂.ns
      (encode (handler₂ st₂).1) cfg₂.expire) cfg₁.ns).1 =
      [CacheEntry.mk (keyBuilder pfx cfg₂.ns hid₂ cfg₂.depNs [] [])
        cfg₂.ns (encode (handler₂ st₂).1) t cfg₂.expire] := by
    simp [Backend.clear, Backend.set, List.filter_cons, List.filter_nil,
      hb12, hns2]
  have hcount : (Backend.clear (Backend.set (Backend.set [] t
      (keyBuilder pfx cfg₁.ns hid₁ cfg₁.depNs [] []) cfg₁.ns
      (encode (handler₁ st₁).1) cfg₁.expire) t
      (keyBuilder pfx cfg₂.ns hid₂ cfg₂.depNs [] []) cfg₂.ns
      (encode (handler₂ st₂).1) cfg₂.expire) cfg₁.ns).2 = 1 := by
    simp [Backend.clear, Backend.set, List.filter_cons, List.filter_nil,
      hb12, hns2]
  rw [hbc', hcount]
  have hfA2 : Backend.get
      [CacheEntry.mk (keyBuilder pfx cfg₂.ns hid₂ cfg₂.depNs [] [])
        cfg₂.ns (encode (handler₂ st₂).1) t cfg₂.expire] t2
      (keyBuilder pfx cfg₁.ns hid₁ cfg₁.depNs [] []) = none := by
    simp [Backend.get, List.find?_cons, hb21]
  rw [first_call_miss cfg₁ hid₁ handler₁
    (RegistryState.mk
      [CacheEntry.mk (keyBuilder pfx cfg₂.ns hid₂ cfg₂.depNs [] [])
        cfg₂.ns (encode (handler₂ st₂).1) t cfg₂.expire] pfx true) t2
    [] [] st₁ rfl hfA2]
  have hgB2 : Backend.get (Backend.set
      [CacheEntry.mk (keyBuilder pfx cfg₂.ns hid₂ cfg₂.depNs [] [])
        cfg₂.ns (encode (handler₂ st₂).1) t cfg₂.expire] t2
      (keyBuilder pfx cfg₁.ns hid₁ cfg₁.depNs [] []) cfg₁.ns
      (encode (handler₁ st₁).1) cfg₁.expire) t2
      (keyBuilder pfx cfg₂.ns hid₂ cfg₂.depNs [] []) =
        some (encode (handler₂ st₂).1) := by
    rw [Backend.get_set_other
      [CacheEntry.mk (keyBuilder pfx cfg₂.ns hid₂ cfg₂.depNs [] [])
        cfg₂.ns (encode (handler₂ st₂).1) t cfg₂.expire] t2
      (keyBuilder pfx cfg₁.ns hid₁ cfg₁.depNs [] []) cfg₁.ns
      (encode (handler₁ st₁).1) cfg₁.expire t2
      (keyBuilder pfx cfg₂.ns hid₂ cfg₂.depNs [] []) (Ne.symm hkey)]
    simp [Backend.get, List.find?_cons, entryLive, hexp₂, hwin]
  have e4 := step_hit cfg₂ hid₂ handler₂
    (RegistryState.mk (Backend.set
      [CacheEntry.mk (keyBuilder pfx cfg₂.ns hid₂ cfg₂.depNs [] [])
        cfg₂.ns (encode (handler₂ st₂).1) t cfg₂.expire] t2
      (keyBuilder pfx cfg₁.ns hid₁ cfg₁.depNs [] []) cfg₁.ns
      (encode (handler₁ st₁).1) cfg₁.expire) pfx true) t2
    (some (RequestInfo.mk "GET" none)) true [] [] noFaults
    (handler₂ st₂).2 (encode (handler₂ st₂).1) (handler₂ st₂).1 rfl
    plainGet_facts.1 plainGet_facts.2.1 plainGet_facts.2.2 rfl hgB2
    (decode_encode (handler₂ st₂).1)
  rw [e4]
  exact ⟨rfl, rfl, rfl, rfl, rfl⟩

/-- Concrete C8 scenario: first namespace call. -/
def w8cfg1 : CacheConfig := CacheConfig.mk "ns1" (some 2) "d"

/-- Concrete C8 scenario: second namespace configuration. -/
def w8cfg2 : CacheConfig := CacheConfig.mk "ns2" (some 2) "d"

/-- Concrete C8 scenario: the ns1 store call at time 0. -/
def w8A : Invocation Nat :=
  interceptorCall w8cfg1 "h1" counterHandler (RegistryState.mk [] "fp" true)
    0 (some (RequestInfo.mk "GET" none)) true [] [] noFaults 0

/-- Concrete C8 scenario: the ns2 store call at time 0. -/
def w8B : Invocation Nat :=
  interceptorCall w8cfg2 "h2" counterHandler
    (RegistryState.mk w8A.backend "fp" true) 0
    (some (RequestInfo.mk "GET" none)) true [] [] noFaults 0

/-- Concrete C8 scenario: the backend after clearing namespace ns1. -/
def w8bc : Backend := (Backend.clear w8B.backend "ns1").1

/-- Concrete C8 scenario: the post-clear ns1 call at time 1. -/
def w8A2 : Invocation Nat :=
  interceptorCall w8cfg1 "h1" counterHandler
    (RegistryState.mk w8bc "fp" true) 1
    (some (RequestInfo.mk "GET" none)) true [] [] noFaults 0

/-- Concrete C8 scenario: the post-clear ns2 call at time 1. -/
def w8B2 : Invocation Nat :=
  interceptorCall w8cfg2 "h2" counterHandler
    (RegistryState.mk w8A2.backend "fp" true) 1
    (some (RequestInfo.mk "GET" none)) true [] [] noFaults w8B.handlerState

/-- Witness for C8 at a concrete input: namespaces ns1 and ns2, one entry
each, clearing ns1 removes one entry, then ns1 misses while ns2 hits. -/
theorem C8_witness :
    (Backend.clear w8B.backend "ns1").2 = 1 ∧
      w8A2.cacheStatus = some "MISS" ∧ w8B2.cacheStatus = some "HIT" := by
  have h := C8_clear_namespace w8cfg1 w8cfg2 "h1" "h2" "fp" counterHandler
    counterHandler 0 0 0 1 2 w8A w8B w8bc w8A2 w8B2 (by decide) rfl
    (by decide) (by decide) rfl rfl rfl rfl rfl
  exact ⟨h.2.2.1, h.2.2.2.1, h.2.2.2.2.2.1⟩

/-- C9: when the registry is globally disabled every invocation is plain
passthrough — the response carries no cache-status header at all and the
handler result is still returned, with the backend untouched — and after
re-enabling, an entry stored before the disable period is served as HIT
while still within its ttl. -/
theorem C9_disable_omits_header {σ : Type} (cfg : CacheConfig)
    (hid : String) (handler : σ → Value × σ) (reg : RegistryState)
    (t1 t2 t3 e : Nat) (args : List Value) (kwargs : List (String × Value))
    (st : σ) (c1 c2 c3 : Invocation σ)
    (hen : reg.enabled = true) (hexp : cfg.expire = some e)
    (hfresh : Backend.get reg.backend t1
      (keyBuilder reg.prefixStr cfg.ns hid cfg.depNs args kwargs) = none)
    (hwin : t3 < t1 + e)
    (hc1 : c1 = interceptorCall cfg hid handler reg t1
      (some (RequestInfo.mk "GET" none)) true args kwargs noFaults st)
    (hc2 : c2 = interceptorCall cfg hid handler
      (RegistryState.mk c1.backend reg.prefixStr false) t2
      (some (RequestInfo.mk "GET" none)) true args kwargs noFaults
      c1.handlerState)
    (hc3 : c3 = interceptorCall cfg hid handler
      (RegistryState.mk c2.backend reg.prefixStr true) t3
      (some (RequestInfo.mk "GET" none)) true args kwargs noFaults
      c2.handlerState) :
    c1.cacheStatus = some "MISS" ∧
      c2.cacheStatus = none ∧ c2.executed = true ∧
      c2.result = (handler c1.handlerState).1 ∧ c2.backend = c1.backend ∧
      c3.cacheStatus = some "HIT" ∧ c3.result = c1.result := by
  subst hc1
  subst hc2
  subst hc3
  rw [first_call_miss cfg hid handler reg t1 args kwargs st hen hfresh]
  rw [step_passthrough cfg hid handler
    (RegistryState.mk (Backend.set reg.backend t1
      (keyBuilder reg.prefixStr cfg.ns hid cfg.depNs args kwargs)
      cfg.ns (encode (handler st).1) cfg.expire) reg.prefixStr false) t2
    (some (RequestInfo.mk "GET" none)) true args kwargs noFaults
    (handler st).2 (Or.inl rfl)]
  have hget : Backend.get
      (Backend.set reg.backend t1
        (keyBuilder reg.prefixStr cfg.ns hid cfg.depNs args kwargs)
        cfg.ns (encode (handler st).1) cfg.expire) t3
      (keyBuilder reg.prefixStr cfg.ns hid cfg.depNs args kwargs) =
        some (encode (handler st).1) := by
    rw [hexp, Backend.get_set_self]
    simp [entryLive, hwin]
  have e3 := step_hit cfg hid handler
    (RegistryState.mk (Backend.set reg.backend t1
      (keyBuilder reg.prefixStr cfg.ns hid cfg.depNs args kwargs)
      cfg.ns (encode (handler st).1) cfg.expire) reg.prefixStr true) t3
    (some (RequestInfo.mk "GET" none)) true args kwargs noFaults
    (handler (handler st).2).2 (encode (handler st).1)
    (handler st).1 rfl plainGet_facts.1 plainGet_facts.2.1
    plainGet_facts.2.2 rfl hget (decode_encode (handler st).1)
  rw [e3]
  exact ⟨rfl, rfl, rfl, rfl, rfl, rfl, rfl⟩

/-- Concrete C9 scenario: the enabled store call at time 0. -/
def w9c1 : Invocation Nat :=
  interceptorCall wCfg "h" counterHandler wReg 0
    (some (RequestInfo.mk "GET" none)) true [] [] noFaults 0

/-- Concrete C9 scenario: the disabled call at time 1. -/
def w9c2 : Invocation Nat :=
  interceptorCall wCfg "h" counterHandler
    (RegistryState.mk w9c1.backend "fp" false) 1
    (some (RequestInfo.mk "GET" none)) true [] [] noFaults
    w9c1.handlerState

/-- Concrete C9 scenario: the re-enabled call at time 1. -/
def w9c3 : Invocation Nat :=
  interceptorCall wCfg "h" counterHandler
    (RegistryState.mk w9c2.backend "fp" true) 1
    (some (RequestInfo.mk "GET" none)) true [] [] noFaults
    w9c2.handlerState

/-- Witness for C9 at a concrete input: store at time 0, disabled call at
time 1 has no header, re-enabled call at time 1 hits the old entry. -/
theorem C9_witness :
    w9c2.cacheStatus = none ∧ w9c3.cacheStatus = some "HIT" ∧
      w9c3.result = w9c1.result := by
  have h := C9_disable_omits_header wCfg "h" counterHandler wReg 0 1 1 2
    [] [] 0 w9c1 w9c2 w9c3 rfl rfl rfl (by decide) rfl rfl rfl
  exact ⟨h.2.1, h.2.2.2.2.2.1, h.2.2.2.2.2.2⟩

/-- C10: wrapping a plain coroutine that is not an HTTP endpoint (no
request in scope, called directly) is transparent: with no response object
in scope no invocation ever produces a cache-status header, and for a
handler whose value depends only on its arguments both the first (miss)
and second (hit) wrapped calls return exactly the value the unwrapped
function would return. -/
theorem C10_plain_coroutine_transparent (cfg : CacheConfig) (hid : String)
    (v : Value) (reg : RegistryState) (t1 t2 : Nat) (args : List Value)
    (kwargs : List (String × Value)) (c1 c2 : Invocation Unit)
    (hen : reg.enabled = true) (hexp : cfg.expire = none)
    (hfresh : Backend.get reg.backend t1
      (keyBuilder reg.prefixStr cfg.ns hid cfg.depNs args kwargs) = none)
    (hc1 : c1 = interceptorCall cfg hid (fun u : Unit => (v, u)) reg t1
      none false args kwargs noFaults ())
    (hc2 : c2 = interceptorCall cfg hid (fun u : Unit => (v, u))
      (RegistryState.mk c1.backend reg.prefixStr true) t2 none false args
      kwargs noFaults ()) :
    (∀ {τ : Type} (h : τ → Value × τ) (r : RegistryState) (n : Nat)
        (rq : Option RequestInfo) (a : List Value)
        (kw : List (String × Value)) (f : Faults) (s : τ),
      (interceptorCall cfg hid h r n rq false a kw f s).cacheStatus =
        none) ∧
    c1.result = v ∧ c1.cacheStatus = none ∧ c2.result = v ∧
      c2.cacheStatus = none := by
  constructor
  · intro τ h r n rq a kw f s
    simp only [interceptorCall]
    split
    · rfl
    split
    · rfl
    split <;> rfl
  subst hc1
  subst hc2
  have e1 : interceptorCall cfg hid (fun u : Unit => (v, u)) reg t1 none
      false args kwargs noFaults () =
    { result := v, cacheStatus := none,
      backend := Backend.set reg.backend t1
        (keyBuilder reg.prefixStr cfg.ns hid cfg.depNs args kwargs) cfg.ns
        (encode v) cfg.expire,
      handlerState := (), executed := true } := by
    rw [step_miss cfg hid (fun u : Unit => (v, u)) reg t1 none false args
      kwargs noFaults () hen rfl rfl
      (Or.inr (Or.inr (by rw [hfresh]; rfl)))]
    simp [noFaults]
  rw [e1]
  have hget : Backend.get
      (Backend.set reg.backend t1
        (keyBuilder reg.prefixStr cfg.ns hid cfg.depNs args kwargs)
        cfg.ns (encode v) cfg.expire) t2
      (keyBuilder reg.prefixStr cfg.ns hid cfg.depNs args kwargs) =
        some (encode v) := by
    rw [hexp, Backend.get_set_self]
    simp [entryLive]
  have e2 := step_hit cfg hid (fun u : Unit => (v, u))
    (RegistryState.mk (Backend.set reg.backend t1
      (keyBuilder reg.prefixStr cfg.ns hid cfg.depNs args kwargs)
      cfg.ns (encode v) cfg.expire) reg.prefixStr true) t2 none false
    args kwargs noFaults () (encode v) v rfl rfl rfl rfl rfl hget
    (decode_encode v)
  rw [e2]
  exact ⟨rfl, rfl, rfl, rfl⟩

/-- Concrete C10 scenario: first direct call of the wrapped plain
coroutine. -/
def w10c1 : Invocation Unit :=
  interceptorCall (CacheConfig.mk "test" none "__fastcache") "h"
    (fun u : Unit => (Value.prim (Prim.pInt 7), u))
    (RegistryState.mk [] "fp" true) 0 none false [] [] noFaults ()

/-- Concrete C10 scenario: second direct call of the wrapped plain
coroutine. -/
def w10c2 : Invocation Unit :=
  interceptorCall (CacheConfig.mk "test" none "__fastcache") "h"
    (fun u : Unit => (Value.prim (Prim.pInt 7), u))
    (RegistryState.mk w10c1.backend "fp" true) 1 none false [] [] noFaults
    ()

/-- Witness for C10 at a concrete input: a pure coroutine returning 7,
called directly twice; both calls return 7 and neither sets a header. -/
theorem C10_witness :
    w10c1.result = Value.prim (Prim.pInt 7) ∧ w10c1.cacheStatus = none ∧
      w10c2.result = Value.prim (Prim.pInt 7) ∧
      w10c2.cacheStatus = none := by
  have h := C10_plain_coroutine_transparent
    (CacheConfig.mk "test" none "__fastcache") "h"
    (Value.prim (Prim.pInt 7)) (RegistryState.mk [] "fp" true) 0 1 [] []
    w10c1 w10c2 rfl rfl rfl rfl rfl
  exact h.2

end Fastcache
